import Mathlib

/-
Verification development for the Aether trading agent's decision-validation
core: decision parsing, risk gating, trailing-stop ratcheting, and two
dashboard computations (win rate, exit-plan risk:reward).

Numeric values (prices, equity, percentages, confidence) are embedded as ℚ;
timestamps as ℤ (seconds); UTC days as ℤ via floor division by 86400.
-/

namespace Aether

/-- Trade actions of the decision schema: the four allowed literals. -/
inductive Action
  | long
  | short
  | close
  | hold
deriving DecidableEq, Repr

/-- Canonical parsed trade intent produced by the decision parser. -/
structure Decision where
  action : Action
  sizePct : ℚ
  confidence : ℚ
  reason : String
deriving DecidableEq, Repr

/-- Modelled from the spec: the outcome of the structured decode step of
`parse` (the decision-parser source is not present in the repository; only
its design documents are). `none` models a raw response that fails the
structured decode (empty string, non-JSON text). In a decoded object,
`action` is the raw string, `sizePct` is `none` when the field is missing or
non-numeric, and `reason`/`confidence` are `none` when missing. -/
structure RawDecoded where
  action : String
  sizePct : Option ℚ
  confidence : Option ℚ
  reason : Option String
deriving DecidableEq, Repr

/-- Neutral confidence used when the oracle omits the field. -/
def defaultConfidence : ℚ := 1/2

/-- Decode an action string into the closed enum; `none` for any other value. -/
def parseAction (s : String) : Option Action :=
  if s = "long" then some .long
  else if s = "short" then some .short
  else if s = "close" then some .close
  else if s = "hold" then some .hold
  else none

/-- Modelled from the spec: the forced-hold decision produced on any
malformed oracle input: action hold, size 0, reason "forced hold: cause". -/
def forcedHold (cause : String) : Decision :=
  { action := .hold, sizePct := 0, confidence := defaultConfidence,
    reason := "forced hold: " ++ cause }

/-- Modelled from the spec: total decision parser. Step 1: a failed decode
forces hold with cause "parse error". Step 2: an action outside the four
literals forces hold with cause "invalid action". Step 3: a missing,
non-numeric or out-of-range sizePct forces hold with cause "invalid size".
Step 4: missing reason/confidence are defaulted rather than failing. -/
def parse : Option RawDecoded → Decision
  | none => forcedHold "parse error"
  | some r =>
    match parseAction r.action with
    | none => forcedHold "invalid action"
    | some a =>
      match r.sizePct with
      | none => forcedHold "invalid size"
      | some s =>
        if s < 0 ∨ 1 < s then forcedHold "invalid size"
        else { action := a, sizePct := s,
               confidence := r.confidence.getD defaultConfidence,
               reason := r.reason.getD "" }

/-- A raw input is malformed when decode fails, the action string is not one
of the four literals, or sizePct is missing or outside [0, 1]. -/
def isMalformed : Option RawDecoded → Bool
  | none => true
  | some r =>
    match parseAction r.action with
    | none => true
    | some _ =>
      match r.sizePct with
      | none => true
      | some s => decide (s < 0 ∨ 1 < s)

/-- Outcome of a risk validation: approved flag plus reason (empty iff approved). -/
structure RiskResult where
  approved : Bool
  reason : String
deriving DecidableEq, Repr

/-- Approval result. -/
def approveResult : RiskResult := ⟨true, ""⟩

/-- Denial result with the given reason. -/
def denyResult (r : String) : RiskResult := ⟨false, r⟩

/-- Risk-manager configuration: max-equity-usage fraction, optional max
leverage, optional daily loss cap, optional cooldown in seconds. -/
structure RiskConfig where
  maxEquityUsagePct : ℚ
  maxLeverage : Option ℚ
  dailyLossCapPct : Option ℚ
  cooldownSeconds : Option ℤ
deriving DecidableEq, Repr

/-- Mutable safety state for one (symbol, position-type) slice plus the
account-wide daily baseline fields. -/
structure RiskState where
  lastOpenTimestamp : Option ℤ
  dailyStartingEquity : ℚ
  dayMarker : Option ℤ
  consecutiveFullSizeRequests : ℕ
deriving DecidableEq, Repr

/-- Everything a validate call returns: the result, the (possibly forced to
hold) decision, the updated state, and whether a non-fatal alert was raised. -/
structure ValidateOutput where
  result : RiskResult
  decision : Decision
  state : RiskState
  alert : Bool
deriving DecidableEq, Repr

/-- UTC day index of a timestamp (floor division by 86400 seconds). -/
def utcDay (now : ℤ) : ℤ := Int.fdiv now 86400

/-- Modelled from the spec: re-baseline the account-wide daily fields at the
first observation of a new UTC day; otherwise leave the state unchanged. -/
def rebaseline (st : RiskState) (now : ℤ) (equity : ℚ) : RiskState :=
  if st.dayMarker = some (utcDay now) then st
  else { st with dayMarker := some (utcDay now), dailyStartingEquity := equity }

/-- Re-baseline only when a daily loss cap is configured (the re-baseline is
part of the daily-loss-cap check). -/
def rebaselineIfCap (cfg : RiskConfig) (st : RiskState) (now : ℤ) (equity : ℚ) : RiskState :=
  match cfg.dailyLossCapPct with
  | none => st
  | some _ => rebaseline st now equity

/-- The daily loss cap is breached when a cap is configured and equity has
fallen below dailyStartingEquity times (1 - cap). -/
def capBreached (cfg : RiskConfig) (st : RiskState) (equity : ℚ) : Bool :=
  match cfg.dailyLossCapPct with
  | none => false
  | some cap => decide (equity < st.dailyStartingEquity * (1 - cap))

/-- The cooldown is active when a cooldown is configured, the action opens a
position, a previous open is recorded, and too little time has elapsed. -/
def cooldownActive (cfg : RiskConfig) (st : RiskState) (a : Action) (now : ℤ) : Bool :=
  match cfg.cooldownSeconds, st.lastOpenTimestamp with
  | some cd, some t0 => decide ((a = .long ∨ a = .short) ∧ now - t0 < cd)
  | _, _ => false

/-- Modelled from the spec: confidence-based leverage multiplier. -/
def leverageMultiplier (c : ℚ) : ℚ :=
  if 9/10 ≤ c then 3
  else if 4/5 ≤ c then 2
  else if 7/10 ≤ c then 3/2
  else if 3/5 ≤ c then 6/5
  else 1

/-- Modelled from the spec: account-size-tiered leverage ceiling (smaller
accounts get a lower ceiling; the documented overall maximum is 3x). -/
def accountTierCeiling (equity : ℚ) : ℚ :=
  if equity < 500 then 1
  else if equity < 1000 then 3/2
  else if equity < 5000 then 2
  else if equity < 10000 then 5/2
  else 3

/-- Effective max leverage: the configured maximum clamped by the
account-size tier (the stricter one wins); the tier alone when none is
configured. -/
def effectiveMaxLeverage (cfg : RiskConfig) (equity : ℚ) : ℚ :=
  match cfg.maxLeverage with
  | none => accountTierCeiling equity
  | some m => min m (accountTierCeiling equity)

/-- Force a decision's action to hold, keeping its other fields. -/
def forceHold (d : Decision) : Decision :=
  { d with action := .hold }

/-- Consecutive-full-size counter update: a full-size request (sizePct = 1)
increments the counter, any other decision resets it to zero. -/
def counterUpdate (d : Decision) (st : RiskState) : RiskState :=
  if d.sizePct = 1 then
    { st with consecutiveFullSizeRequests := st.consecutiveFullSizeRequests + 1 }
  else { st with consecutiveFullSizeRequests := 0 }

/-- Approval bookkeeping once every rule has passed: update the consecutive
counter, and record the open timestamp on an opening action. -/
def bookkeeping (d : Decision) (now : ℤ) (st : RiskState) : RiskState :=
  if d.action = .long ∨ d.action = .short then
    { counterUpdate d st with lastOpenTimestamp := some now }
  else counterUpdate d st

/-- Modelled from the spec: the risk manager's ordered rule chain (the
risk-manager source is not present in the repository; only its design
documents are). Rules in order, first denial short-circuits:
hold auto-approves with no mutation; close without a position of the
addressed type denies; non-positive price denies; notional above the
max-equity-usage fraction denies; resulting leverage above the effective
maximum denies; a configured daily loss cap re-baselines at a new UTC day
then denies non-close actions below the floor; a configured cooldown denies
opening actions too soon after the last open; the oracle sanity check
(3 or more consecutive full-size requests) forces the decision to hold with
a non-fatal alert and resets the counter; otherwise the decision is approved
and the bookkeeping runs. State mutation is modelled by returning the
updated state. -/
def validate (cfg : RiskConfig) (d : Decision) (now : ℤ) (price : ℚ)
    (hasPos : Bool) (equity : ℚ) (st : RiskState) : ValidateOutput :=
  if d.action = .hold then ⟨approveResult, d, st, false⟩
  else if d.action = .close ∧ hasPos = false then
    ⟨denyResult "no position to close", d, st, false⟩
  else if price ≤ 0 then ⟨denyResult "no valid price", d, st, false⟩
  else if cfg.maxEquityUsagePct * equity < equity * d.sizePct then
    ⟨denyResult "exceeds max position size", d, st, false⟩
  else if effectiveMaxLeverage cfg equity < d.sizePct * leverageMultiplier d.confidence then
    ⟨denyResult "exceeds max leverage", d, st, false⟩
  else if capBreached cfg (rebaselineIfCap cfg st now equity) equity = true ∧ d.action ≠ .close then
    ⟨denyResult "daily loss cap reached", d, rebaselineIfCap cfg st now equity, false⟩
  else if cooldownActive cfg (rebaselineIfCap cfg st now equity) d.action now = true then
    ⟨denyResult "cooldown active", d, rebaselineIfCap cfg st now equity, false⟩
  else if 3 ≤ (rebaselineIfCap cfg st now equity).consecutiveFullSizeRequests then
    ⟨approveResult, forceHold d,
      { rebaselineIfCap cfg st now equity with consecutiveFullSizeRequests := 0 }, true⟩
  else
    ⟨approveResult, d, bookkeeping d now (rebaselineIfCap cfg st now equity), false⟩

/-- Side of an open position. -/
inductive Side
  | long
  | short
deriving DecidableEq, Repr

/-- Position type: swing (long horizon) or scalp (short horizon). -/
inductive PositionType
  | swing
  | scalp
deriving DecidableEq, Repr

/-- Open position fields needed for the trailing-stop engine. -/
structure Position where
  side : Side
  entryPrice : ℚ
  stopLossPrice : ℚ
  trailingPct : ℚ
deriving DecidableEq, Repr

/-- Modelled from the spec: one trailing-stop recomputation on a price tick
(the position-manager source is not present in the repository; only its
design documents are). The candidate stop is price times (1 - trailingPct)
for a long, price times (1 + trailingPct) for a short; the candidate is
applied only if it is tighter than the stored stop (higher for a long, lower
for a short), never loosened. -/
def trailTick (p : Position) (price : ℚ) : Position :=
  match p.side with
  | .long =>
    if p.stopLossPrice < price * (1 - p.trailingPct) then
      { p with stopLossPrice := price * (1 - p.trailingPct) }
    else p
  | .short =>
    if price * (1 + p.trailingPct) < p.stopLossPrice then
      { p with stopLossPrice := price * (1 + p.trailingPct) }
    else p

/-- Apply a sequence of price ticks to an open position, left to right. -/
def trailTicks (p : Position) (ticks : List ℚ) : Position :=
  ticks.foldl trailTick p

/-- Capital-allocation bucket derived from confidence. -/
inductive Bucket
  | high
  | medium
  | low
deriving DecidableEq, Repr

/-- Modelled from the spec: confidence-to-bucket mapping (at least 0.8 is
high, at least 0.6 is medium, below 0.6 is low). -/
def bucketFor (c : ℚ) : Bucket :=
  if 4/5 ≤ c then .high
  else if 3/5 ≤ c then .medium
  else .low

/-- Modelled from the spec: confidence-based trailing percentage (at least
0.8 gives 10 percent, 0.6 up to 0.8 gives 12 percent, below 0.6 gives 15
percent). -/
def trailingPctFor (c : ℚ) : ℚ :=
  if 4/5 ≤ c then 1/10
  else if 3/5 ≤ c then 3/25
  else 3/20

/-- Modelled from the spec: capital allocation fraction per position type
and bucket (swing 25/12/6 percent, scalp 15/10/5 percent). -/
def allocationPct : PositionType → Bucket → ℚ
  | .swing, .high => 1/4
  | .swing, .medium => 3/25
  | .swing, .low => 3/50
  | .scalp, .high => 3/20
  | .scalp, .medium => 1/10
  | .scalp, .low => 1/20

/-- From PerformanceCard.jsx: number of completed trades with positive pnl. -/
def winningTrades (pnls : List ℚ) : ℕ :=
  (pnls.filter (fun p => 0 < p)).length

/-- From PerformanceCard.jsx: number of completed trades with negative pnl. -/
def losingTrades (pnls : List ℚ) : ℕ :=
  (pnls.filter (fun p => p < 0)).length

/-- From PerformanceCard.jsx: displayed win rate, winningTrades over
totalTrades times 100 when any trade exists, 0 otherwise. -/
def winRate (pnls : List ℚ) : ℚ :=
  if 0 < pnls.length then
    (winningTrades pnls : ℚ) / (pnls.length : ℚ) * 100
  else 0

/-- From the Positions component (src/unnamed/part_009, exit-plan block):
the risk:reward value. `target`/`stop` are `none` when takeProfit/stopLoss
are absent (the component collapses falsy values to null before this
computation). The value is reward = abs(target - entry) divided by
risk = abs(entry - stop), computed only when both levels are present, the
entry price is positive, and the risk is strictly positive; the component
then formats it with toFixed for display. -/
def riskReward (target sl : Option ℚ) (entryPrice : ℚ) : Option ℚ :=
  match target, sl with
  | some t, some s =>
    if 0 < entryPrice then
      if 0 < |entryPrice - s| then some (|t - entryPrice| / |entryPrice - s|)
      else none
    else none
  | _, _ => none

/-! Helper lemmas about the state-updating pieces of the risk manager. -/

theorem rebaseline_lastOpen (st : RiskState) (now : ℤ) (e : ℚ) :
    (rebaseline st now e).lastOpenTimestamp = st.lastOpenTimestamp := by
  unfold rebaseline; split <;> rfl

theorem rebaseline_counter (st : RiskState) (now : ℤ) (e : ℚ) :
    (rebaseline st now e).consecutiveFullSizeRequests = st.consecutiveFullSizeRequests := by
  unfold rebaseline; split <;> rfl

theorem rebaselineIfCap_lastOpen (cfg : RiskConfig) (st : RiskState) (now : ℤ) (e : ℚ) :
    (rebaselineIfCap cfg st now e).lastOpenTimestamp = st.lastOpenTimestamp := by
  obtain ⟨a, b, dlc, cd⟩ := cfg
  cases dlc
  · rfl
  · exact rebaseline_lastOpen st now e

theorem rebaselineIfCap_counter (cfg : RiskConfig) (st : RiskState) (now : ℤ) (e : ℚ) :
    (rebaselineIfCap cfg st now e).consecutiveFullSizeRequests
      = st.consecutiveFullSizeRequests := by
  obtain ⟨a, b, dlc, cd⟩ := cfg
  cases dlc
  · rfl
  · exact rebaseline_counter st now e

theorem rebaselineIfCap_sameday (cfg : RiskConfig) (st : RiskState) (now : ℤ) (e : ℚ)
    (h : st.dayMarker = some (utcDay now)) :
    rebaselineIfCap cfg st now e = st := by
  obtain ⟨a, b, dlc, cd⟩ := cfg
  cases dlc
  · rfl
  · unfold rebaselineIfCap rebaseline
    simp only [h, if_pos]

theorem rebaselineIfCap_newday (cfg : RiskConfig) (st : RiskState) (now : ℤ) (e : ℚ)
    (cap : ℚ) (hc : cfg.dailyLossCapPct = some cap) (h : st.dayMarker ≠ some (utcDay now)) :
    rebaselineIfCap cfg st now e
      = { st with dayMarker := some (utcDay now), dailyStartingEquity := e } := by
  unfold rebaselineIfCap
  rw [hc]
  unfold rebaseline
  rw [if_neg h]

theorem counterUpdate_full (d : Decision) (st : RiskState) (h : d.sizePct = 1) :
    (counterUpdate d st).consecutiveFullSizeRequests
      = st.consecutiveFullSizeRequests + 1 := by
  unfold counterUpdate; rw [if_pos h]

theorem counterUpdate_notFull (d : Decision) (st : RiskState) (h : d.sizePct ≠ 1) :
    (counterUpdate d st).consecutiveFullSizeRequests = 0 := by
  unfold counterUpdate; rw [if_neg h]

theorem counterUpdate_day (d : Decision) (st : RiskState) :
    (counterUpdate d st).dayMarker = st.dayMarker ∧
    (counterUpdate d st).dailyStartingEquity = st.dailyStartingEquity := by
  unfold counterUpdate; split <;> exact ⟨rfl, rfl⟩

theorem bookkeeping_lastOpen_open (d : Decision) (now : ℤ) (st : RiskState)
    (h : d.action = .long ∨ d.action = .short) :
    (bookkeeping d now st).lastOpenTimestamp = some now := by
  unfold bookkeeping; rw [if_pos h]

theorem bookkeeping_counter (d : Decision) (now : ℤ) (st : RiskState) :
    (bookkeeping d now st).consecutiveFullSizeRequests
      = (counterUpdate d st).consecutiveFullSizeRequests := by
  unfold bookkeeping; split <;> rfl

theorem bookkeeping_day (d : Decision) (now : ℤ) (st : RiskState) :
    (bookkeeping d now st).dayMarker = st.dayMarker ∧
    (bookkeeping d now st).dailyStartingEquity = st.dailyStartingEquity := by
  unfold bookkeeping
  split
  · exact (counterUpdate_day d st)
  · exact (counterUpdate_day d st)

theorem cooldownActive_close (cfg : RiskConfig) (st : RiskState) (now : ℤ) :
    cooldownActive cfg st Action.close now = false := by
  unfold cooldownActive
  cases cfg.cooldownSeconds <;> cases st.lastOpenTimestamp <;> simp

/-- Claim C6: validating a hold decision always returns approved = true and
leaves every field of the risk state unchanged (the full validate output is
the auto-approval with the input decision and state, no alert). -/
theorem C6_hold_approves_no_mutation (cfg : RiskConfig) (d : Decision) (now : ℤ)
    (price : ℚ) (hasPos : Bool) (equity : ℚ) (st : RiskState)
    (h : d.action = .hold) :
    validate cfg d now price hasPos equity st = ⟨approveResult, d, st, false⟩ := by
  unfold validate; rw [if_pos h]

/-- Witness for C6 at a concrete input. -/
theorem C6_hold_approves_no_mutation_witness :
    (⟨Action.hold, 0, 1/2, "r"⟩ : Decision).action = Action.hold ∧
    validate ⟨1, none, none, none⟩ ⟨Action.hold, 0, 1/2, "r"⟩ 0 100 false 1000
        ⟨none, 1000, some 0, 0⟩
      = ⟨approveResult, ⟨Action.hold, 0, 1/2, "r"⟩, ⟨none, 1000, some 0, 0⟩, false⟩ :=
  ⟨rfl, C6_hold_approves_no_mutation _ _ _ _ _ _ _ rfl⟩

/-- Claim C7: validating a close decision when no position of the addressed
type exists always denies with reason exactly "no position to close" and
leaves the state unchanged, so repeating the same validation against the
resulting state returns the same denial (idempotence). -/
theorem C7_close_without_position (cfg : RiskConfig) (d : Decision) (now : ℤ)
    (price : ℚ) (equity : ℚ) (st : RiskState) (h : d.action = .close) :
    validate cfg d now price false equity st
      = ⟨denyResult "no position to close", d, st, false⟩ ∧
    validate cfg d now price false equity
        (validate cfg d now price false equity st).state
      = validate cfg d now price false equity st := by
  have h1 : validate cfg d now price false equity st
      = ⟨denyResult "no position to close", d, st, false⟩ := by
    unfold validate
    rw [if_neg (by simp [h]), if_pos (by simp [h])]
  refine ⟨h1, ?_⟩
  rw [h1]
  exact h1

/-- Witness for C7 at a concrete input. -/
theorem C7_close_without_position_witness :
    (⟨Action.close, 0, 1/2, "r"⟩ : Decision).action = Action.close ∧
    validate ⟨1, none, none, none⟩ ⟨Action.close, 0, 1/2, "r"⟩ 0 100 false 1000
        ⟨none, 1000, some 0, 0⟩
      = ⟨denyResult "no position to close", ⟨Action.close, 0, 1/2, "r"⟩,
          ⟨none, 1000, some 0, 0⟩, false⟩ :=
  ⟨rfl, (C7_close_without_position _ _ _ _ _ _ rfl).1⟩

/-- Claim C1: parse is total over all raw oracle inputs: the resulting
action is always one of the four allowed literals, and any malformed input
(failed decode, invalid action string, missing or out-of-range sizePct)
yields action hold, sizePct 0, and a reason of the form
"forced hold: cause" for one of the three causes. -/
theorem C1_parse_total (raw : Option RawDecoded) :
    ((parse raw).action = Action.long ∨ (parse raw).action = Action.short ∨
     (parse raw).action = Action.close ∨ (parse raw).action = Action.hold) ∧
    (isMalformed raw = true →
      (parse raw).action = Action.hold ∧ (parse raw).sizePct = 0 ∧
      ((parse raw).reason = "forced hold: parse error" ∨
       (parse raw).reason = "forced hold: invalid action" ∨
       (parse raw).reason = "forced hold: invalid size")) := by
  constructor
  · cases h : (parse raw).action <;> simp
  · intro hm
    cases raw with
    | none => simp [parse, forcedHold]
    | some r =>
      simp only [isMalformed] at hm
      simp only [parse]
      cases hpa : parseAction r.action with
      | none => simp [hpa, forcedHold]
      | some a =>
        rw [hpa] at hm
        simp only [hpa]
        cases hs : r.sizePct with
        | none => simp [hs, forcedHold]
        | some s =>
          rw [hs] at hm
          simp only [hs]
          simp only [decide_eq_true_eq] at hm
          simp [hm, forcedHold]

/-- Witness for C1 at the concrete malformed input of a failed decode. -/
theorem C1_parse_total_witness :
    isMalformed none = true ∧
    (parse none).action = Action.hold ∧ (parse none).sizePct = 0 ∧
    ((parse none).reason = "forced hold: parse error" ∨
     (parse none).reason = "forced hold: invalid action" ∨
     (parse none).reason = "forced hold: invalid size") :=
  ⟨rfl, (C1_parse_total none).2 rfl⟩

/-! Trailing-stop ratchet lemmas. -/

theorem trailTick_side (p : Position) (x : ℚ) : (trailTick p x).side = p.side := by
  obtain ⟨s, e, sl, t⟩ := p
  cases s <;> simp only [trailTick] <;> split <;> rfl

theorem trailTick_stop_long (p : Position) (x : ℚ) (h : p.side = Side.long) :
    p.stopLossPrice ≤ (trailTick p x).stopLossPrice := by
  obtain ⟨s, e, sl, t⟩ := p
  cases s with
  | long =>
    simp only [trailTick]
    split
    · exact le_of_lt (by assumption)
    · exact le_refl _
  | short => simp at h

theorem trailTick_stop_short (p : Position) (x : ℚ) (h : p.side = Side.short) :
    (trailTick p x).stopLossPrice ≤ p.stopLossPrice := by
  obtain ⟨s, e, sl, t⟩ := p
  cases s with
  | long => simp at h
  | short =>
    simp only [trailTick]
    split
    · exact le_of_lt (by assumption)
    · exact le_refl _

theorem trailTick_max_long (p : Position) (x : ℚ) (h : p.side = Side.long) :
    (trailTick p x).stopLossPrice = max p.stopLossPrice (x * (1 - p.trailingPct)) := by
  obtain ⟨s, e, sl, t⟩ := p
  cases s with
  | long =>
    simp only [trailTick]
    split
    · exact (max_eq_right (le_of_lt (by assumption))).symm
    · exact (max_eq_left (le_of_not_lt (by assumption))).symm
  | short => simp at h

theorem trailTick_min_short (p : Position) (x : ℚ) (h : p.side = Side.short) :
    (trailTick p x).stopLossPrice = min p.stopLossPrice (x * (1 + p.trailingPct)) := by
  obtain ⟨s, e, sl, t⟩ := p
  cases s with
  | long => simp at h
  | short =>
    simp only [trailTick]
    split
    · exact (min_eq_right (le_of_lt (by assumption))).symm
    · exact (min_eq_left (le_of_not_lt (by assumption))).symm

theorem trailTicks_side (p : Position) (ts : List ℚ) : (trailTicks p ts).side = p.side := by
  induction ts generalizing p with
  | nil => rfl
  | cons x xs ih =>
    simp only [trailTicks, List.foldl] at ih ⊢
    rw [ih (trailTick p x), trailTick_side]

theorem trailTicks_stop_long (p : Position) (ts : List ℚ) (h : p.side = Side.long) :
    p.stopLossPrice ≤ (trailTicks p ts).stopLossPrice := by
  induction ts generalizing p with
  | nil => exact le_refl _
  | cons x xs ih =>
    simp only [trailTicks, List.foldl] at ih ⊢
    exact le_trans (trailTick_stop_long p x h)
      (ih (trailTick p x) (by rw [trailTick_side, h]))

theorem trailTicks_stop_short (p : Position) (ts : List ℚ) (h : p.side = Side.short) :
    (trailTicks p ts).stopLossPrice ≤ p.stopLossPrice := by
  induction ts generalizing p with
  | nil => exact le_refl _
  | cons x xs ih =>
    simp only [trailTicks, List.foldl] at ih ⊢
    exact le_trans (ih (trailTick p x) (by rw [trailTick_side, h]))
      (trailTick_stop_short p x h)

theorem trailTicks_append (p : Position) (ts more : List ℚ) :
    trailTicks p (ts ++ more) = trailTicks (trailTicks p ts) more := by
  simp [trailTicks, List.foldl_append]

/-- Claim C3: trailing-stop ratchet. For a long position the stored stop is
monotonically non-decreasing over any sequence of price ticks (each single
tick replaces the stop with the max of the stored stop and the candidate,
so a candidate is applied only when tighter); symmetrically, for a short
position the stored stop is monotonically non-increasing (each tick takes
the min with the candidate). -/
theorem C3_trailing_ratchet (p : Position) (ts more : List ℚ) (x : ℚ) :
    (p.side = Side.long →
      p.stopLossPrice ≤ (trailTicks p ts).stopLossPrice ∧
      (trailTicks p ts).stopLossPrice ≤ (trailTicks p (ts ++ more)).stopLossPrice ∧
      (trailTick p x).stopLossPrice = max p.stopLossPrice (x * (1 - p.trailingPct))) ∧
    (p.side = Side.short →
      (trailTicks p ts).stopLossPrice ≤ p.stopLossPrice ∧
      (trailTicks p (ts ++ more)).stopLossPrice ≤ (trailTicks p ts).stopLossPrice ∧
      (trailTick p x).stopLossPrice = min p.stopLossPrice (x * (1 + p.trailingPct))) := by
  constructor
  · intro h
    refine ⟨trailTicks_stop_long p ts h, ?_, trailTick_max_long p x h⟩
    rw [trailTicks_append]
    exact trailTicks_stop_long (trailTicks p ts) more (by rw [trailTicks_side, h])
  · intro h
    refine ⟨trailTicks_stop_short p ts h, ?_, trailTick_min_short p x h⟩
    rw [trailTicks_append]
    exact trailTicks_stop_short (trailTicks p ts) more (by rw [trailTicks_side, h])

/-- Witness for C3 at concrete long and short positions and tick sequences. -/
theorem C3_trailing_ratchet_witness :
    ((⟨Side.long, 100, 90, 1/10⟩ : Position).stopLossPrice
        ≤ (trailTicks ⟨Side.long, 100, 90, 1/10⟩ [100, 120]).stopLossPrice ∧
      (trailTicks ⟨Side.long, 100, 90, 1/10⟩ [100, 120]).stopLossPrice
        ≤ (trailTicks ⟨Side.long, 100, 90, 1/10⟩ ([100, 120] ++ [80])).stopLossPrice ∧
      (trailTick ⟨Side.long, 100, 90, 1/10⟩ 120).stopLossPrice
        = max (⟨Side.long, 100, 90, 1/10⟩ : Position).stopLossPrice
            (120 * (1 - (⟨Side.long, 100, 90, 1/10⟩ : Position).trailingPct))) ∧
    ((trailTicks ⟨Side.short, 100, 110, 1/10⟩ [100, 90]).stopLossPrice
        ≤ (⟨Side.short, 100, 110, 1/10⟩ : Position).stopLossPrice ∧
      (trailTicks ⟨Side.short, 100, 110, 1/10⟩ ([100, 90] ++ [120])).stopLossPrice
        ≤ (trailTicks ⟨Side.short, 100, 110, 1/10⟩ [100, 90]).stopLossPrice ∧
      (trailTick ⟨Side.short, 100, 110, 1/10⟩ 90).stopLossPrice
        = min (⟨Side.short, 100, 110, 1/10⟩ : Position).stopLossPrice
            (90 * (1 + (⟨Side.short, 100, 110, 1/10⟩ : Position).trailingPct))) :=
  ⟨(C3_trailing_ratchet ⟨Side.long, 100, 90, 1/10⟩ [100, 120] [80] 120).1 rfl,
   (C3_trailing_ratchet ⟨Side.short, 100, 110, 1/10⟩ [100, 90] [120] 90).2 rfl⟩

/-- Claim C8: the trailing percentage assigned from confidence is 10 percent
for confidence at least 0.8, 12 percent on [0.6, 0.8), and 15 percent below
0.6; concretely 0.85 gives 10 percent trailing and the high allocation
bucket (25 percent of equity on a swing), 0.65 gives 12 percent and medium,
0.4 gives 15 percent and low. -/
theorem C8_confidence_buckets (c : ℚ) :
    (4/5 ≤ c → trailingPctFor c = 1/10 ∧ bucketFor c = Bucket.high) ∧
    (3/5 ≤ c ∧ c < 4/5 → trailingPctFor c = 3/25 ∧ bucketFor c = Bucket.medium) ∧
    (c < 3/5 → trailingPctFor c = 3/20 ∧ bucketFor c = Bucket.low) ∧
    (trailingPctFor (17/20) = 1/10 ∧ bucketFor (17/20) = Bucket.high ∧
      allocationPct PositionType.swing (bucketFor (17/20)) = 1/4) ∧
    (trailingPctFor (13/20) = 3/25 ∧ bucketFor (13/20) = Bucket.medium) ∧
    (trailingPctFor (2/5) = 3/20 ∧ bucketFor (2/5) = Bucket.low) := by
  refine ⟨?_, ?_, ?_, ?_, ?_, ?_⟩
  · intro h
    unfold trailingPctFor bucketFor
    rw [if_pos h, if_pos h]
    exact ⟨rfl, rfl⟩
  · intro h
    have hn : ¬(4/5 ≤ c) := not_le.mpr h.2
    unfold trailingPctFor bucketFor
    rw [if_neg hn, if_pos h.1, if_neg hn, if_pos h.1]
    exact ⟨rfl, rfl⟩
  · intro h
    have hn1 : ¬(4/5 ≤ c) := not_le.mpr (lt_trans h (by norm_num))
    have hn2 : ¬(3/5 ≤ c) := not_le.mpr h
    unfold trailingPctFor bucketFor
    rw [if_neg hn1, if_neg hn2, if_neg hn1, if_neg hn2]
    exact ⟨rfl, rfl⟩
  · norm_num [trailingPctFor, bucketFor, allocationPct]
  · norm_num [trailingPctFor, bucketFor]
  · norm_num [trailingPctFor, bucketFor]

/-- Witness for C8 at the three concrete confidences of the claim. -/
theorem C8_confidence_buckets_witness :
    (trailingPctFor (17/20) = 1/10 ∧ bucketFor (17/20) = Bucket.high) ∧
    (trailingPctFor (13/20) = 3/25 ∧ bucketFor (13/20) = Bucket.medium) ∧
    (trailingPctFor (2/5) = 3/20 ∧ bucketFor (2/5) = Bucket.low) :=
  ⟨(C8_confidence_buckets (17/20)).1 (by norm_num),
   (C8_confidence_buckets (13/20)).2.1 ⟨by norm_num, by norm_num⟩,
   (C8_confidence_buckets (2/5)).2.2.1 (by norm_num)⟩

/-- Every completed trade is counted exactly once: as a win (pnl positive),
a loss (pnl negative), or neither (pnl exactly zero). -/
theorem win_lose_zero_partition (pnls : List ℚ) :
    winningTrades pnls + losingTrades pnls
      + (pnls.filter (fun p => p = 0)).length = pnls.length := by
  induction pnls with
  | nil => rfl
  | cons p t ih =>
    simp only [winningTrades, losingTrades, List.filter_cons, decide_eq_true_eq,
      List.length_cons] at ih ⊢
    rcases lt_trichotomy p 0 with h | h | h
    · rw [if_neg (asymm h), if_pos h, if_neg h.ne]
      simp only [List.length_cons]
      omega
    · subst h
      rw [if_neg (lt_irrefl 0), if_neg (lt_irrefl 0), if_pos rfl]
      simp only [List.length_cons]
      omega
    · rw [if_pos h, if_neg (asymm h), if_neg (ne_of_gt h)]
      simp only [List.length_cons]
      omega

/-- Claim C9: the displayed win rate is 100 times winningTrades over
totalTrades when the trade list is non-empty and 0 when it is empty; a trade
with pnl exactly 0 is counted neither as a win nor as a loss, and
winningTrades plus losingTrades can be strictly less than totalTrades. -/
theorem C9_win_rate :
    (∀ pnls : List ℚ,
      (pnls ≠ [] →
        winRate pnls = 100 * (winningTrades pnls : ℚ) / (pnls.length : ℚ)) ∧
      (pnls = [] → winRate pnls = 0) ∧
      winningTrades pnls + losingTrades pnls
        + (pnls.filter (fun p => p = 0)).length = pnls.length) ∧
    winningTrades [(0 : ℚ)] + losingTrades [(0 : ℚ)] < ([(0 : ℚ)] : List ℚ).length := by
  constructor
  · intro pnls
    refine ⟨?_, ?_, win_lose_zero_partition pnls⟩
    · intro h
      unfold winRate
      rw [if_pos (List.length_pos.mpr h)]
      ring
    · intro h
      subst h
      rfl
  · norm_num [winningTrades, losingTrades, List.filter]

/-- Witness for C9 at a concrete three-trade list with one zero-pnl trade. -/
theorem C9_win_rate_witness :
    ([(2 : ℚ), -1, 0] ≠ ([] : List ℚ)) ∧
    winRate [(2 : ℚ), -1, 0]
      = 100 * (winningTrades [(2 : ℚ), -1, 0] : ℚ)
          / (([(2 : ℚ), -1, 0] : List ℚ).length : ℚ) :=
  ⟨by simp, (C9_win_rate.1 [(2 : ℚ), -1, 0]).1 (by simp)⟩

/-- Claim C10: the exit-plan risk:reward value is produced exactly when
takeProfit, stopLoss and a positive entryPrice are all present and the risk
(absolute entry minus stop) is strictly positive, in which case it equals
reward over risk; in every other case no value is produced, so the division
can never divide by zero. -/
theorem C10_risk_reward_guard (target sl : Option ℚ) (e : ℚ) :
    (∀ r, riskReward target sl e = some r →
      ∃ tv sv, target = some tv ∧ sl = some sv ∧ 0 < e ∧ 0 < |e - sv| ∧
        r = |tv - e| / |e - sv|) ∧
    (target = none ∨ sl = none ∨ e ≤ 0 → riskReward target sl e = none) ∧
    (∀ tv sv, target = some tv → sl = some sv → |e - sv| = 0 →
      riskReward target sl e = none) := by
  refine ⟨?_, ?_, ?_⟩
  · intro r hr
    cases target with
    | none => simp [riskReward] at hr
    | some tv =>
      cases sl with
      | none => simp [riskReward] at hr
      | some sv =>
        simp only [riskReward] at hr
        split_ifs at hr with h1 h2
        exact ⟨tv, sv, rfl, rfl, h1, h2, (Option.some_inj.mp hr).symm⟩
  · intro h
    rcases h with h | h | h
    · subst h; rfl
    · subst h; cases target <;> rfl
    · cases target with
      | none => rfl
      | some tv =>
        cases sl with
        | none => rfl
        | some sv =>
          simp only [riskReward]
          rw [if_neg (not_lt.mpr h)]
  · intro tv sv ht hs habs
    subst ht; subst hs
    simp only [riskReward]
    by_cases he : 0 < e
    · rw [if_pos he, if_neg (by rw [habs]; exact lt_irrefl 0)]
    · rw [if_neg he]

/-- Witness for C10 at concrete inputs covering the produced and guarded
cases. -/
theorem C10_risk_reward_guard_witness :
    (∃ tv sv, some (110 : ℚ) = some tv ∧ some (95 : ℚ) = some sv ∧ (0 : ℚ) < 100 ∧
      (0 : ℚ) < |100 - sv| ∧ (2 : ℚ) = |tv - 100| / |100 - sv|) ∧
    riskReward none (some 95) 100 = none ∧
    riskReward (some 110) (some 100) 100 = none :=
  ⟨(C10_risk_reward_guard (some 110) (some 95) 100).1 2 (by norm_num [riskReward]),
   (C10_risk_reward_guard none (some 95) 100).2.1 (Or.inl rfl),
   (C10_risk_reward_guard (some 110) (some 100) 100).2.2 110 100 rfl rfl (by norm_num)⟩

/-- Claim C4: with a cooldown configured, a long or short decision arriving
while now minus lastOpenTimestamp is below the cooldown is never approved
(first conjunct); on every approved output whose decision is long or short,
lastOpenTimestamp is updated to now (second conjunct); concretely with a 60
second cooldown, an approved long at t = 0 records the open time, a long at
t = 30 is denied with reason "cooldown active", and a long at t = 61 is
approved. -/
theorem C4_cooldown :
    (∀ (cfg : RiskConfig) (d : Decision) (now : ℤ) (price : ℚ) (hasPos : Bool)
        (equity : ℚ) (st : RiskState) (cd t0 : ℤ),
      cfg.cooldownSeconds = some cd → st.lastOpenTimestamp = some t0 →
      now - t0 < cd → (d.action = Action.long ∨ d.action = Action.short) →
      (validate cfg d now price hasPos equity st).result.approved = false) ∧
    (∀ (cfg : RiskConfig) (d : Decision) (now : ℤ) (price : ℚ) (hasPos : Bool)
        (equity : ℚ) (st : RiskState),
      (validate cfg d now price hasPos equity st).result.approved = true →
      ((validate cfg d now price hasPos equity st).decision.action = Action.long ∨
       (validate cfg d now price hasPos equity st).decision.action = Action.short) →
      (validate cfg d now price hasPos equity st).state.lastOpenTimestamp = some now) ∧
    ((validate ⟨1, none, none, some 60⟩ ⟨Action.long, 1/10, 1/2, "r"⟩ 0 100 false 1000
        ⟨none, 1000, some 0, 0⟩).result.approved = true ∧
     (validate ⟨1, none, none, some 60⟩ ⟨Action.long, 1/10, 1/2, "r"⟩ 0 100 false 1000
        ⟨none, 1000, some 0, 0⟩).state.lastOpenTimestamp = some 0 ∧
     (validate ⟨1, none, none, some 60⟩ ⟨Action.long, 1/10, 1/2, "r"⟩ 30 100 true 1000
        (validate ⟨1, none, none, some 60⟩ ⟨Action.long, 1/10, 1/2, "r"⟩ 0 100 false 1000
          ⟨none, 1000, some 0, 0⟩).state).result = denyResult "cooldown active" ∧
     (validate ⟨1, none, none, some 60⟩ ⟨Action.long, 1/10, 1/2, "r"⟩ 61 100 true 1000
        (validate ⟨1, none, none, some 60⟩ ⟨Action.long, 1/10, 1/2, "r"⟩ 0 100 false 1000
          ⟨none, 1000, some 0, 0⟩).state).result.approved = true) := by
  refine ⟨?_, ?_, ?_, ?_, ?_, ?_⟩
  · intro cfg d now price hasPos equity st cd t0 hcd hlast hlt ha
    have hcool : cooldownActive cfg (rebaselineIfCap cfg st now equity) d.action now
        = true := by
      unfold cooldownActive
      rw [hcd, rebaselineIfCap_lastOpen, hlast]
      exact decide_eq_true ⟨ha, hlt⟩
    unfold validate
    split_ifs with h1 h2 h3 h4 h5 h6
    · rcases ha with h | h <;> rw [h] at h1 <;> exact absurd h1 (by simp)
    · rfl
    · rfl
    · rfl
    · rfl
    · rfl
    · rfl
  · intro cfg d now price hasPos equity st
    unfold validate
    split_ifs with h1 h2 h3 h4 h5 h6 h7 h8 <;> intro happ hact
    · rw [h1] at hact
      rcases hact with h | h <;> exact absurd h (by simp)
    · exact absurd happ (by simp [denyResult])
    · exact absurd happ (by simp [denyResult])
    · exact absurd happ (by simp [denyResult])
    · exact absurd happ (by simp [denyResult])
    · exact absurd happ (by simp [denyResult])
    · exact absurd happ (by simp [denyResult])
    · rcases hact with h | h <;> exact absurd h (by simp [forceHold])
    · exact bookkeeping_lastOpen_open _ _ _ hact
  · norm_num +decide [validate, capBreached, cooldownActive, rebaselineIfCap, rebaseline,
      utcDay, effectiveMaxLeverage, accountTierCeiling, leverageMultiplier, bookkeeping,
      counterUpdate, approveResult]
  · norm_num +decide [validate, capBreached, cooldownActive, rebaselineIfCap, rebaseline,
      utcDay, effectiveMaxLeverage, accountTierCeiling, leverageMultiplier, bookkeeping,
      counterUpdate]
  · norm_num +decide [validate, capBreached, cooldownActive, rebaselineIfCap, rebaseline,
      utcDay, effectiveMaxLeverage, accountTierCeiling, leverageMultiplier, bookkeeping,
      counterUpdate]
  · norm_num +decide [validate, capBreached, cooldownActive, rebaselineIfCap, rebaseline,
      utcDay, effectiveMaxLeverage, accountTierCeiling, leverageMultiplier, bookkeeping,
      counterUpdate, approveResult]

/-- Witness for C4 applying the universal cooldown-denial law at a concrete
input. -/
theorem C4_cooldown_witness :
    (⟨1, none, none, some 60⟩ : RiskConfig).cooldownSeconds = some 60 ∧
    (⟨some 0, 1000, some 0, 0⟩ : RiskState).lastOpenTimestamp = some 0 ∧
    ((30 : ℤ) - 0 < 60) ∧
    (validate ⟨1, none, none, some 60⟩ ⟨Action.long, 1/10, 1/2, "r"⟩ 30 100 true 1000
      ⟨some 0, 1000, some 0, 0⟩).result.approved = false :=
  ⟨rfl, rfl, by norm_num,
    C4_cooldown.1 ⟨1, none, none, some 60⟩ ⟨Action.long, 1/10, 1/2, "r"⟩ 30 100 true 1000
      ⟨some 0, 1000, some 0, 0⟩ 60 0 rfl rfl (by norm_num) (Or.inl rfl)⟩

/-- Counterexample to claim C2 as stated: with the cap configured
(dailyStartingEquity 1000, capPct 1/20) and equity 940 below the floor 950,
a hold decision, which is an action other than close, is approved rather
than denied; moreover a long that breaks the position-size rule is denied
with reason "exceeds max position size", not "daily loss cap reached". -/
theorem C2_daily_cap_counterexample :
    ((940 : ℚ) < 1000 * (1 - 1/20)) ∧
    (⟨Action.hold, 0, 1/2, "r"⟩ : Decision).action ≠ Action.close ∧
    (validate ⟨1, none, some (1/20), none⟩ ⟨Action.hold, 0, 1/2, "r"⟩ 0 100 false 940
      ⟨none, 1000, some 0, 0⟩).result.approved = true ∧
    (⟨Action.long, 1/2, 1/2, "r"⟩ : Decision).action ≠ Action.close ∧
    (validate ⟨1/10, none, some (1/20), none⟩ ⟨Action.long, 1/2, 1/2, "r"⟩ 0 100 false 940
      ⟨none, 1000, some 0, 0⟩).result = denyResult "exceeds max position size" := by
  refine ⟨by norm_num, by simp, ?_, by simp, ?_⟩
  · norm_num +decide [validate, approveResult]
  · norm_num +decide [validate]

/-- Claim C2 as amended: with a daily loss cap configured, the day marker
current, and equity below dailyStartingEquity times (1 - cap), every long or
short decision that passes the price, size and leverage checks is denied
with reason "daily loss cap reached" and the state is unchanged (first
conjunct); a close under the same conditions is still approved (second
conjunct); when the stored day marker differs from the current UTC day, the
check re-baselines dailyStartingEquity to the current equity and the day
marker to the current day before comparing (third conjunct); concretely,
with baseline 1000 and cap 1/20, a passing long at equity 940 is denied
with that reason and at equity 951 is approved. -/
theorem C2_daily_loss_cap :
    (∀ (cfg : RiskConfig) (d : Decision) (now : ℤ) (price : ℚ) (hasPos : Bool)
        (equity : ℚ) (st : RiskState) (cap : ℚ),
      cfg.dailyLossCapPct = some cap →
      st.dayMarker = some (utcDay now) →
      equity < st.dailyStartingEquity * (1 - cap) →
      (d.action = Action.long ∨ d.action = Action.short) →
      0 < price →
      ¬(cfg.maxEquityUsagePct * equity < equity * d.sizePct) →
      ¬(effectiveMaxLeverage cfg equity < d.sizePct * leverageMultiplier d.confidence) →
      validate cfg d now price hasPos equity st
        = ⟨denyResult "daily loss cap reached", d, st, false⟩) ∧
    (∀ (cfg : RiskConfig) (d : Decision) (now : ℤ) (price : ℚ) (equity : ℚ)
        (st : RiskState) (cap : ℚ),
      cfg.dailyLossCapPct = some cap →
      st.dayMarker = some (utcDay now) →
      equity < st.dailyStartingEquity * (1 - cap) →
      d.action = Action.close →
      0 < price →
      ¬(cfg.maxEquityUsagePct * equity < equity * d.sizePct) →
      ¬(effectiveMaxLeverage cfg equity < d.sizePct * leverageMultiplier d.confidence) →
      (validate cfg d now price true equity st).result.approved = true) ∧
    (∀ (cfg : RiskConfig) (d : Decision) (now : ℤ) (price : ℚ) (hasPos : Bool)
        (equity : ℚ) (st : RiskState) (cap : ℚ),
      cfg.dailyLossCapPct = some cap →
      st.dayMarker ≠ some (utcDay now) →
      d.action ≠ Action.hold →
      ¬(d.action = Action.close ∧ hasPos = false) →
      0 < price →
      ¬(cfg.maxEquityUsagePct * equity < equity * d.sizePct) →
      ¬(effectiveMaxLeverage cfg equity < d.sizePct * leverageMultiplier d.confidence) →
      (validate cfg d now price hasPos equity st).state.dayMarker = some (utcDay now) ∧
      (validate cfg d now price hasPos equity st).state.dailyStartingEquity = equity) ∧
    ((validate ⟨1, none, some (1/20), none⟩ ⟨Action.long, 1/10, 1/2, "r"⟩ 0 100 false 940
        ⟨none, 1000, some 0, 0⟩).result = denyResult "daily loss cap reached" ∧
     (validate ⟨1, none, some (1/20), none⟩ ⟨Action.long, 1/10, 1/2, "r"⟩ 0 100 false 951
        ⟨none, 1000, some 0, 0⟩).result.approved = true) := by
  refine ⟨?_, ?_, ?_, ?_, ?_⟩
  · intro cfg d now price hasPos equity st cap hcap hday hlt ha hprice hsize hlev
    have hreb : rebaselineIfCap cfg st now equity = st :=
      rebaselineIfCap_sameday cfg st now equity hday
    have hne : d.action ≠ Action.close := by
      rcases ha with h | h <;> rw [h] <;> simp
    have hcapAnd : capBreached cfg (rebaselineIfCap cfg st now equity) equity = true ∧
        d.action ≠ Action.close := by
      refine ⟨?_, hne⟩
      rw [hreb]
      unfold capBreached
      rw [hcap]
      exact decide_eq_true hlt
    unfold validate
    split_ifs with h1 h2 h3
    · rcases ha with h | h <;> rw [h] at h1 <;> exact absurd h1 (by simp)
    · exact absurd h2.1 hne
    · exact absurd h3 (not_le.mpr hprice)
    · rw [hreb]
  · intro cfg d now price equity st cap hcap hday hlt hclose hprice hsize hlev
    unfold validate
    split_ifs with h1 h2 h3 h4 h5 h6
    · rw [hclose] at h1
      exact absurd h1 (by simp)
    · simp at h2
    · exact absurd h3 (not_le.mpr hprice)
    · exact absurd hclose h4.2
    · rw [hclose, cooldownActive_close] at h5
      simp at h5
    · rfl
    · rfl
  · intro cfg d now price hasPos equity st cap hcap hnew hnh hcl hprice hsize hlev
    have hreb := rebaselineIfCap_newday cfg st now equity cap hcap hnew
    unfold validate
    split_ifs with h1 h2 h3 h4 h5
    · exact absurd h1 hnh
    · exact absurd h2 (not_le.mpr hprice)
    · rw [hreb]
      exact ⟨rfl, rfl⟩
    · rw [hreb]
      exact ⟨rfl, rfl⟩
    · rw [hreb]
      exact ⟨rfl, rfl⟩
    · rw [hreb]
      exact ⟨(bookkeeping_day d now _).1, (bookkeeping_day d now _).2⟩
  · norm_num +decide [validate, capBreached, cooldownActive, rebaselineIfCap, rebaseline,
      utcDay, effectiveMaxLeverage, accountTierCeiling, leverageMultiplier]
  · norm_num +decide [validate, capBreached, cooldownActive, rebaselineIfCap, rebaseline,
      utcDay, effectiveMaxLeverage, accountTierCeiling, leverageMultiplier, bookkeeping,
      counterUpdate, approveResult]

/-- Witness for the amended C2, applying the universal denial law at a
concrete below-the-floor input. -/
theorem C2_daily_loss_cap_witness :
    (⟨1, none, some (1/20), none⟩ : RiskConfig).dailyLossCapPct = some (1/20) ∧
    (⟨none, 1000, some 0, 0⟩ : RiskState).dayMarker = some (utcDay 0) ∧
    ((940 : ℚ) < (⟨none, 1000, some 0, 0⟩ : RiskState).dailyStartingEquity * (1 - 1/20)) ∧
    validate ⟨1, none, some (1/20), none⟩ ⟨Action.long, 1/10, 1/2, "r"⟩ 0 100 false 940
        ⟨none, 1000, some 0, 0⟩
      = ⟨denyResult "daily loss cap reached", ⟨Action.long, 1/10, 1/2, "r"⟩,
          ⟨none, 1000, some 0, 0⟩, false⟩ :=
  ⟨rfl, rfl, by norm_num,
    C2_daily_loss_cap.1 ⟨1, none, some (1/20), none⟩ ⟨Action.long, 1/10, 1/2, "r"⟩ 0 100
      false 940 ⟨none, 1000, some 0, 0⟩ (1/20) rfl rfl (by norm_num) (Or.inl rfl)
      (by norm_num) (by norm_num)
      (by norm_num [effectiveMaxLeverage, accountTierCeiling, leverageMultiplier])⟩

/-- Counterexample to claim C5 as stated: with the consecutive-full-size
counter already at 3, a long decision arriving with an invalid price (0) is
denied with "no valid price" rather than forced to hold: no alert is
raised, the output decision is still a long, and the counter is not reset,
contradicting "regardless of the other risk-rule outcomes". -/
theorem C5_sanity_counterexample :
    3 ≤ (⟨none, (1000 : ℚ), some 0, 3⟩ : RiskState).consecutiveFullSizeRequests ∧
    validate ⟨1, none, none, none⟩ ⟨Action.long, 1/2, 1/2, "r"⟩ 0 0 true 1000
        ⟨none, 1000, some 0, 3⟩
      = ⟨denyResult "no valid price", ⟨Action.long, 1/2, 1/2, "r"⟩,
          ⟨none, 1000, some 0, 3⟩, false⟩ := by
  refine ⟨by norm_num, ?_⟩
  norm_num +decide [validate]

/-- Claim C5 as amended: once three consecutive full-size (sizePct = 1)
decisions have been counted, the next non-hold decision that passes the
earlier rules (close-validity, price, size, leverage, daily cap, cooldown)
is forced to hold with a non-fatal alert instead of a denial and the counter
is reset to 0 (first conjunct); an all-rules-passing decision with
sizePct = 1 increments the counter (second conjunct); an all-rules-passing
non-hold decision with any other sizePct resets it to zero (third
conjunct); a denied decision leaves the counter unchanged (fourth
conjunct); concretely, after three full-size requests a passing long is
turned into an approved hold with an alert and counter 0. -/
theorem C5_oracle_sanity :
    (∀ (cfg : RiskConfig) (d : Decision) (now : ℤ) (price : ℚ) (hasPos : Bool)
        (equity : ℚ) (st : RiskState),
      3 ≤ st.consecutiveFullSizeRequests →
      d.action ≠ Action.hold →
      ¬(d.action = Action.close ∧ hasPos = false) →
      0 < price →
      ¬(cfg.maxEquityUsagePct * equity < equity * d.sizePct) →
      ¬(effectiveMaxLeverage cfg equity < d.sizePct * leverageMultiplier d.confidence) →
      capBreached cfg (rebaselineIfCap cfg st now equity) equity = false →
      cooldownActive cfg (rebaselineIfCap cfg st now equity) d.action now = false →
      validate cfg d now price hasPos equity st
        = ⟨approveResult, forceHold d,
            { rebaselineIfCap cfg st now equity with consecutiveFullSizeRequests := 0 },
            true⟩) ∧
    (∀ (cfg : RiskConfig) (d : Decision) (now : ℤ) (price : ℚ) (hasPos : Bool)
        (equity : ℚ) (st : RiskState),
      st.consecutiveFullSizeRequests < 3 →
      d.action ≠ Action.hold →
      ¬(d.action = Action.close ∧ hasPos = false) →
      0 < price →
      ¬(cfg.maxEquityUsagePct * equity < equity * d.sizePct) →
      ¬(effectiveMaxLeverage cfg equity < d.sizePct * leverageMultiplier d.confidence) →
      capBreached cfg (rebaselineIfCap cfg st now equity) equity = false →
      cooldownActive cfg (rebaselineIfCap cfg st now equity) d.action now = false →
      d.sizePct = 1 →
      (validate cfg d now price hasPos equity st).state.consecutiveFullSizeRequests
          = st.consecutiveFullSizeRequests + 1 ∧
      (validate cfg d now price hasPos equity st).result.approved = true) ∧
    (∀ (cfg : RiskConfig) (d : Decision) (now : ℤ) (price : ℚ) (hasPos : Bool)
        (equity : ℚ) (st : RiskState),
      st.consecutiveFullSizeRequests < 3 →
      d.action ≠ Action.hold →
      ¬(d.action = Action.close ∧ hasPos = false) →
      0 < price →
      ¬(cfg.maxEquityUsagePct * equity < equity * d.sizePct) →
      ¬(effectiveMaxLeverage cfg equity < d.sizePct * leverageMultiplier d.confidence) →
      capBreached cfg (rebaselineIfCap cfg st now equity) equity = false →
      cooldownActive cfg (rebaselineIfCap cfg st now equity) d.action now = false →
      d.sizePct ≠ 1 →
      (validate cfg d now price hasPos equity st).state.consecutiveFullSizeRequests = 0 ∧
      (validate cfg d now price hasPos equity st).result.approved = true) ∧
    (∀ (cfg : RiskConfig) (d : Decision) (now : ℤ) (price : ℚ) (hasPos : Bool)
        (equity : ℚ) (st : RiskState),
      (validate cfg d now price hasPos equity st).result.approved = false →
      (validate cfg d now price hasPos equity st).state.consecutiveFullSizeRequests
        = st.consecutiveFullSizeRequests) ∧
    validate ⟨1, none, none, none⟩ ⟨Action.long, 1/2, 1/2, "r"⟩ 0 100 true 1000
        ⟨none, 1000, some 0, 3⟩
      = ⟨approveResult, ⟨Action.hold, 1/2, 1/2, "r"⟩, ⟨none, 1000, some 0, 0⟩, true⟩ := by
  refine ⟨?_, ?_, ?_, ?_, ?_⟩
  · intro cfg d now price hasPos equity st hc hnh hcl hprice hsize hlev hcapb hcool
    have hcnt : 3 ≤ (rebaselineIfCap cfg st now equity).consecutiveFullSizeRequests := by
      rw [rebaselineIfCap_counter]
      exact hc
    have hcapneg : ¬(capBreached cfg (rebaselineIfCap cfg st now equity) equity = true ∧
        d.action ≠ Action.close) := by
      intro h
      rw [hcapb] at h
      simp at h
    have hcoolneg : ¬(cooldownActive cfg (rebaselineIfCap cfg st now equity)
        d.action now = true) := by
      rw [hcool]
      simp
    unfold validate
    split_ifs with h1 h2
    · exact absurd h1 hnh
    · exact absurd h2 (not_le.mpr hprice)
    · rfl
  · intro cfg d now price hasPos equity st hc hnh hcl hprice hsize hlev hcapb hcool hfull
    have hcnt : ¬(3 ≤ (rebaselineIfCap cfg st now equity).consecutiveFullSizeRequests) := by
      rw [rebaselineIfCap_counter]
      exact not_le.mpr hc
    have hcapneg : ¬(capBreached cfg (rebaselineIfCap cfg st now equity) equity = true ∧
        d.action ≠ Action.close) := by
      intro h
      rw [hcapb] at h
      simp at h
    have hcoolneg : ¬(cooldownActive cfg (rebaselineIfCap cfg st now equity)
        d.action now = true) := by
      rw [hcool]
      simp
    unfold validate
    split_ifs with h1 h2
    · exact absurd h1 hnh
    · exact absurd h2 (not_le.mpr hprice)
    · constructor
      · rw [show (⟨approveResult, d,
            bookkeeping d now (rebaselineIfCap cfg st now equity), false⟩
              : ValidateOutput).state
            = bookkeeping d now (rebaselineIfCap cfg st now equity) from rfl,
          bookkeeping_counter, counterUpdate_full d _ hfull, rebaselineIfCap_counter]
      · rfl
  · intro cfg d now price hasPos equity st hc hnh hcl hprice hsize hlev hcapb hcool hfull
    have hcnt : ¬(3 ≤ (rebaselineIfCap cfg st now equity).consecutiveFullSizeRequests) := by
      rw [rebaselineIfCap_counter]
      exact not_le.mpr hc
    have hcapneg : ¬(capBreached cfg (rebaselineIfCap cfg st now equity) equity = true ∧
        d.action ≠ Action.close) := by
      intro h
      rw [hcapb] at h
      simp at h
    have hcoolneg : ¬(cooldownActive cfg (rebaselineIfCap cfg st now equity)
        d.action now = true) := by
      rw [hcool]
      simp
    unfold validate
    split_ifs with h1 h2
    · exact absurd h1 hnh
    · exact absurd h2 (not_le.mpr hprice)
    · constructor
      · rw [show (⟨approveResult, d,
            bookkeeping d now (rebaselineIfCap cfg st now equity), false⟩
              : ValidateOutput).state
            = bookkeeping d now (rebaselineIfCap cfg st now equity) from rfl,
          bookkeeping_counter, counterUpdate_notFull d _ hfull]
      · rfl
  · intro cfg d now price hasPos equity st
    unfold validate
    split_ifs <;> intro h
    · simp [approveResult] at h
    · rfl
    · rfl
    · rfl
    · rfl
    · exact rebaselineIfCap_counter cfg st now equity
    · exact rebaselineIfCap_counter cfg st now equity
    · simp [approveResult] at h
    · simp [approveResult] at h
  · norm_num +decide [validate, capBreached, cooldownActive, rebaselineIfCap, rebaseline,
      utcDay, effectiveMaxLeverage, accountTierCeiling, leverageMultiplier, forceHold]

/-- Witness for the amended C5: the forced-hold law applied at the concrete
input of the final conjunct. -/
theorem C5_oracle_sanity_witness :
    validate ⟨1, none, none, none⟩ ⟨Action.long, 1/2, 1/2, "r"⟩ 0 100 true 1000
        ⟨none, 1000, some 0, 3⟩
      = ⟨approveResult, forceHold ⟨Action.long, 1/2, 1/2, "r"⟩,
          { rebaselineIfCap ⟨1, none, none, none⟩ ⟨none, 1000, some 0, 3⟩ 0 1000 with
              consecutiveFullSizeRequests := 0 }, true⟩ :=
  C5_oracle_sanity.1 ⟨1, none, none, none⟩ ⟨Action.long, 1/2, 1/2, "r"⟩ 0 100 true 1000
    ⟨none, 1000, some 0, 3⟩ (by norm_num) (by simp) (by simp) (by norm_num)
    (by norm_num) (by norm_num [effectiveMaxLeverage, accountTierCeiling, leverageMultiplier])
    rfl rfl

end Aether
